import Mathlib

/-!
Shallow embedding of the elf-lib C library (reader, writer and LEB128 codec)
and verification of its specification claims.

Conventions used throughout:
* C unsigned integers of width w are modelled as `Nat` with explicit
  reductions `% 2^w` (`w64`, `w32`, `w16`) wherever C arithmetic can wrap.
* Byte buffers are `List Nat` (each entry a byte value); C reads from a
  zero-initialised local buffer become `List.getD _ _ 0 % 256`.
* The byte-fetch callback `elf_read_callback` becomes a total function
  `Nat → Nat → Except ElfResult (List Nat)` (offset, size ↦ error or the
  bytes placed into the destination buffer).
* Pointers that the C code only checks against NULL are modelled as `Option`
  where a claim depends on the check, and as always-valid values otherwise.
* C struct members named `Type` are modelled as the field `Typ` (`Type` is
  a Lean keyword).
* `read_16/32/64` in elf_reader.c load the host-order value and byte-swap
  when the file endianness differs from the host; for a validated file
  endianness (1 = LSB, 2 = MSB) the net result is interpretation of the
  buffer bytes in the file's endianness, independent of the host, which is
  what the definitions below compute.
-/

namespace ElfLib

/-- Reduction modulo 2^64, the behaviour of C `uint64_t` arithmetic. -/
def w64 (n : Nat) : Nat := n % 2 ^ 64

/-- Reduction modulo 2^32, the behaviour of C `uint32_t` arithmetic. -/
def w32 (n : Nat) : Nat := n % 2 ^ 32

/-- Reduction modulo 2^16, the behaviour of C `uint16_t` arithmetic. -/
def w16 (n : Nat) : Nat := n % 2 ^ 16

/-- The all-ones 64-bit value, i.e. `(uint64_t)~0`. -/
def u64mask : Nat := 2 ^ 64 - 1

/-- Bitwise complement within 64 bits: `~n` on a `uint64_t`. -/
def u64not (n : Nat) : Nat := u64mask ^^^ w64 n

/-- Result codes of the library (elf_core.h `ElfResult`; the `BAD_SIZE`,
`BAD_HEADER` and `BAD_FORMAT` members are referenced by elf_reader.c and
listed by the specification's error taxonomy). Only distinctness of the
values matters to the library logic. -/
inductive ElfResult where
  | OK
  | UNINIT
  | BAD_MAGIC
  | BAD_VERSION
  | BAD_CLASS
  | BAD_ENDIANNESS
  | BAD_ARG
  | BAD_INDX
  | NOT_FOUND
  | BUFFER_OVERFLOW
  | IO_EOF
  | IO_ERROR
  | NO_MEM
  | BAD_SIZE
  | BAD_HEADER
  | BAD_FORMAT
deriving DecidableEq, Repr

/-- Result codes of the DWARF collaborator (elf_dwarf.h `DwrfResult`). -/
inductive DwrfResult where
  | OK
  | UNINIT
  | BAD_ARG
  | SEC_MISSING
  | DECODE_ERR
deriving DecidableEq, Repr

/-- Byte `i` of a fetched buffer; out-of-range reads yield the zero
initialiser of the C local buffer. -/
def byteAt (bs : List Nat) (i : Nat) : Nat := bs.getD i 0 % 256

/-- elf_reader.c `read_16` on buffer bytes at `off`, file endianness `e`
(1 = LSB, 2 = MSB). -/
def read_16 (bs : List Nat) (off e : Nat) : Nat :=
  if e = 2 then byteAt bs off * 2 ^ 8 + byteAt bs (off + 1)
  else byteAt bs (off + 1) * 2 ^ 8 + byteAt bs off

/-- elf_reader.c `read_32` on buffer bytes at `off`. -/
def read_32 (bs : List Nat) (off e : Nat) : Nat :=
  if e = 2 then
    byteAt bs off * 2 ^ 24 + byteAt bs (off + 1) * 2 ^ 16 +
      byteAt bs (off + 2) * 2 ^ 8 + byteAt bs (off + 3)
  else
    byteAt bs (off + 3) * 2 ^ 24 + byteAt bs (off + 2) * 2 ^ 16 +
      byteAt bs (off + 1) * 2 ^ 8 + byteAt bs off

/-- elf_reader.c `read_64` on buffer bytes at `off`. -/
def read_64 (bs : List Nat) (off e : Nat) : Nat :=
  if e = 2 then
    byteAt bs off * 2 ^ 56 + byteAt bs (off + 1) * 2 ^ 48 +
      byteAt bs (off + 2) * 2 ^ 40 + byteAt bs (off + 3) * 2 ^ 32 +
      byteAt bs (off + 4) * 2 ^ 24 + byteAt bs (off + 5) * 2 ^ 16 +
      byteAt bs (off + 6) * 2 ^ 8 + byteAt bs (off + 7)
  else
    byteAt bs (off + 7) * 2 ^ 56 + byteAt bs (off + 6) * 2 ^ 48 +
      byteAt bs (off + 5) * 2 ^ 40 + byteAt bs (off + 4) * 2 ^ 32 +
      byteAt bs (off + 3) * 2 ^ 24 + byteAt bs (off + 2) * 2 ^ 16 +
      byteAt bs (off + 1) * 2 ^ 8 + byteAt bs off

/-- Record sizes of the on-wire structures (elf_repr.h layouts):
`sizeof(Elf32Header)`. -/
def elf32HeaderSize : Nat := 52

/-- `sizeof(Elf64Header)` (elf_repr.h). -/
def elf64HeaderSize : Nat := 64

/-- `sizeof(Elf32SecHeader)` (elf_repr.h / elf_common.h, both 40). -/
def elf32SecHeaderSize : Nat := 40

/-- `sizeof(Elf64SecHeader)` (elf_repr.h / elf_common.h, both 64). -/
def elf64SecHeaderSize : Nat := 64

/-- `sizeof(Elf32ProHeader)` (elf_repr.h / elf_common.h, both 32). -/
def elf32ProHeaderSize : Nat := 32

/-- `sizeof(Elf64ProHeader)` (elf_repr.h / elf_common.h, both 56). -/
def elf64ProHeaderSize : Nat := 56

/-- `sizeof(Elf32SymEntry)` = 16 (both struct versions in the repository
have this size). -/
def elf32SymEntrySize : Nat := 16

/-- `sizeof(Elf64SymEntry)` = 24 (4+1+1+2+8 plus the trailing member padded
to 8-byte alignment; both struct versions have this size). -/
def elf64SymEntrySize : Nat := 24

/-- Modelled from the spec: entry sizes of relocation records
(`Elf32Rela` etc.), whose struct declarations are absent from the archived
sources; the values are the fixed type-determined sizes of the standard ELF
relocation records referenced by `sizeof` in get_section_header. -/
def elf32RelaSize : Nat := 12

/-- Modelled from the spec: `sizeof(Elf32Rel)`. -/
def elf32RelSize : Nat := 8

/-- Modelled from the spec: `sizeof(Elf32Relr)`. -/
def elf32RelrSize : Nat := 4

/-- Modelled from the spec: `sizeof(Elf64Rela)`. -/
def elf64RelaSize : Nat := 24

/-- Modelled from the spec: `sizeof(Elf64Rel)`. -/
def elf64RelSize : Nat := 16

/-- Modelled from the spec: `sizeof(Elf64Relr)`. -/
def elf64RelrSize : Nat := 8

/-- Uniform in-memory header view cached in the reader context (elf_core.h
`ElfHeader`; the `Flags` member is never written by elf_reader.c and is
omitted). All fields are machine integers modelled as `Nat`. -/
structure ElfHeader where
  EI_OS_ABI : Nat := 0
  EI_ABI_Version : Nat := 0
  Typ : Nat := 0
  Machine : Nat := 0
  Version : Nat := 0
  Entry : Nat := 0
  ProHeadOff : Nat := 0
  SecHeadOff : Nat := 0
  HeadSize : Nat := 0
  PHEntrySize : Nat := 0
  PHEntryNum : Nat := 0
  SHEntrySize : Nat := 0
  SHEntryNum : Nat := 0
  SecStrIndx : Nat := 0
deriving DecidableEq, Repr

/-- The internal reader context (elf_reader.c `InternalElfCtx`); `inited`
models the C field `initialized`. The callback and user pointer are passed
explicitly to each operation instead of being stored. -/
structure ElfRdrCtx where
  inited : Bool := false
  Class : Nat := 0
  Endianness : Nat := 0
  Hdr : ElfHeader := {}
deriving DecidableEq, Repr

/-- Uniform section-header view (elf_core.h `ElfSecHeader`). -/
structure ElfSecHeader where
  NameIdx : Nat := 0
  Typ : Nat := 0
  Flags : Nat := 0
  Address : Nat := 0
  Offset : Nat := 0
  Size : Nat := 0
  Link : Nat := 0
  Info : Nat := 0
  Alignment : Nat := 0
  EntrySize : Nat := 0
deriving DecidableEq, Repr

/-- Uniform program-header view (elf_core.h `ElfProHeader`). -/
structure ElfProHeader where
  Typ : Nat := 0
  Flags : Nat := 0
  Offset : Nat := 0
  PhyAddress : Nat := 0
  VirAddress : Nat := 0
  FileSize : Nat := 0
  MemSize : Nat := 0
  Alignment : Nat := 0
deriving DecidableEq, Repr

/-- Uniform symbol-table entry view (elf_core.h `ElfSymTabEntry`). -/
structure ElfSymTabEntry where
  NameIdx : Nat := 0
  Typ : Nat := 0
  Binding : Nat := 0
  SecIdx : Nat := 0
  Value : Nat := 0
  Size : Nat := 0
deriving DecidableEq, Repr

/-- The byte-fetch callback: absolute offset and size requested, returning
an error or the bytes written into the destination buffer. -/
def ElfCb : Type := Nat → Nat → Except ElfResult (List Nat)


/-! ### Reader operations (elf_reader.c)

The C out-parameters become an extra input (the memory the caller hands in,
returned either untouched or overwritten) so that partially-written outputs
are modelled faithfully. NULL-pointer checks on out-parameters that no claim
exercises are noted in comments instead of being modelled. -/

/-- Field decode of a section-header record (the write sequence into
`sec_header` in `get_section_header`, lines 338-380 of elf_reader.c). -/
def decodeSecHeader (cls e : Nat) (bs : List Nat) : ElfSecHeader :=
  if cls = 1 then
    { NameIdx := read_32 bs 0 e, Typ := read_32 bs 4 e,
      Flags := read_32 bs 8 e, Address := read_32 bs 12 e,
      Offset := read_32 bs 16 e, Size := read_32 bs 20 e,
      Link := read_32 bs 24 e, Info := read_32 bs 28 e,
      Alignment := read_32 bs 32 e, EntrySize := read_32 bs 36 e }
  else
    { NameIdx := read_32 bs 0 e, Typ := read_32 bs 4 e,
      Flags := read_64 bs 8 e, Address := read_64 bs 16 e,
      Offset := read_64 bs 24 e, Size := read_64 bs 32 e,
      Link := read_32 bs 40 e, Info := read_32 bs 44 e,
      Alignment := read_64 bs 48 e, EntrySize := read_64 bs 56 e }

/-- The per-type validation performed by `get_section_header` after the
fields are written (section types: 2 SYMTAB, 3 STRTAB, 4 RELA, 8 NOBITS,
9 REL, 11 DYNSYM, 17 GROUP, 19 RELR; flags: 2 ALLOC, 0x800 COMPRESSED;
file type 1 = ET_REL). Returns the first failing error, else OK. -/
def secHeaderCheck (cls fileType : Nat) (sh : ElfSecHeader) : ElfResult :=
  if cls = 1 ∧ sh.Typ = 4 ∧ sh.EntrySize ≠ elf32RelaSize then .BAD_SIZE
  else if cls = 1 ∧ sh.Typ = 9 ∧ sh.EntrySize ≠ elf32RelSize then .BAD_SIZE
  else if cls = 1 ∧ sh.Typ = 19 ∧ sh.EntrySize ≠ elf32RelrSize then .BAD_SIZE
  else if cls = 1 ∧ (sh.Typ = 11 ∨ sh.Typ = 2) ∧ sh.EntrySize ≠ elf32SymEntrySize then .BAD_SIZE
  else if cls ≠ 1 ∧ sh.Typ = 4 ∧ sh.EntrySize ≠ elf64RelaSize then .BAD_SIZE
  else if cls ≠ 1 ∧ sh.Typ = 9 ∧ sh.EntrySize ≠ elf64RelSize then .BAD_SIZE
  else if cls ≠ 1 ∧ sh.Typ = 19 ∧ sh.EntrySize ≠ elf64RelrSize then .BAD_SIZE
  else if cls ≠ 1 ∧ (sh.Typ = 11 ∨ sh.Typ = 2) ∧ sh.EntrySize ≠ elf64SymEntrySize then .BAD_SIZE
  else if (sh.Flags &&& 0x800 ≠ 0 ∧ sh.Flags &&& 2 ≠ 0) ∨
          (sh.Flags &&& 0x800 ≠ 0 ∧ sh.Typ = 8) then .BAD_FORMAT
  else if sh.Typ = 17 ∧ fileType ≠ 1 then .BAD_FORMAT
  else .OK

/-- `get_section_header(ctx, idx, sec_header)`. The C NULL check on
`sec_header` (BAD_ARG) is not modelled; `out0` is the memory behind the out
pointer, returned unchanged on the paths that do not write it. -/
def get_section_header (ctx : ElfRdrCtx) (cb : ElfCb) (idx : Nat) (out0 : ElfSecHeader) :
    ElfResult × ElfSecHeader :=
  if ¬ctx.inited then (.UNINIT, out0)
  else if idx ≥ ctx.Hdr.SHEntryNum ∨ ctx.Hdr.SHEntryNum = 0 then (.BAD_INDX, out0)
  else
    let off := w64 (ctx.Hdr.SecHeadOff + w32 (idx * ctx.Hdr.SHEntrySize))
    let sz := if ctx.Class = 1 then elf32SecHeaderSize else elf64SecHeaderSize
    match cb off sz with
    | .error e => (e, out0)
    | .ok bs =>
      let sh := decodeSecHeader ctx.Class ctx.Endianness (bs.take sz)
      (secHeaderCheck ctx.Class ctx.Hdr.Typ sh, sh)

/-- Field decode of a program-header record (`get_program_header`,
lines 543-564; the class-32 layout has `Flags` at byte 24, the class-64
layout at byte 4). -/
def decodeProHeader (cls e : Nat) (bs : List Nat) : ElfProHeader :=
  if cls = 1 then
    { Typ := read_32 bs 0 e, Flags := read_32 bs 24 e, Offset := read_32 bs 4 e,
      PhyAddress := read_32 bs 8 e, VirAddress := read_32 bs 12 e,
      FileSize := read_32 bs 16 e, MemSize := read_32 bs 20 e,
      Alignment := read_32 bs 28 e }
  else
    { Typ := read_32 bs 0 e, Flags := read_32 bs 4 e, Offset := read_64 bs 8 e,
      PhyAddress := read_64 bs 16 e, VirAddress := read_64 bs 24 e,
      FileSize := read_64 bs 32 e, MemSize := read_64 bs 40 e,
      Alignment := read_64 bs 48 e }

/-- `get_program_header(ctx, idx, prog_header)`. The source returns
`ELF_BAD_ARG` (not `ELF_BAD_INDX`) on an out-of-range index and requests
`sizeof(Elf32SecHeader)` / `sizeof(Elf64SecHeader)` bytes — the
section-header record sizes — from the callback. -/
def get_program_header (ctx : ElfRdrCtx) (cb : ElfCb) (idx : Nat) (out0 : ElfProHeader) :
    ElfResult × ElfProHeader :=
  if ¬ctx.inited then (.UNINIT, out0)
  else if idx ≥ ctx.Hdr.PHEntryNum then (.BAD_ARG, out0)
  else
    let off := w64 (ctx.Hdr.ProHeadOff + w32 (idx * ctx.Hdr.PHEntrySize))
    let sz := if ctx.Class = 1 then elf32SecHeaderSize else elf64SecHeaderSize
    match cb off sz with
    | .error e => (e, out0)
    | .ok bs => (.OK, decodeProHeader ctx.Class ctx.Endianness (bs.take sz))

/-- `get_symbol_count(ctx, sym_tab)`: 0 on an invalid context or a zero
entry size (the NULL check on `sym_tab` is part of the same condition in C),
else `Size / EntrySize` in `uint64` division. -/
def get_symbol_count (ctx : ElfRdrCtx) (sym_tab : ElfSecHeader) : Nat :=
  if ¬ctx.inited ∨ sym_tab.EntrySize = 0 then 0
  else sym_tab.Size / sym_tab.EntrySize

/-- Field decode of a symbol-table record (`get_symbol_entry`,
lines 604-621; the info byte is split into low nibble = type, high
nibble = binding). -/
def decodeSymEntry (cls e : Nat) (bs : List Nat) : ElfSymTabEntry :=
  if cls = 1 then
    { NameIdx := read_32 bs 0 e, Typ := byteAt bs 12 % 16, Binding := byteAt bs 12 / 16,
      SecIdx := read_16 bs 14 e, Value := read_32 bs 4 e, Size := read_32 bs 8 e }
  else
    { NameIdx := read_32 bs 0 e, Typ := byteAt bs 4 % 16, Binding := byteAt bs 4 / 16,
      SecIdx := read_16 bs 6 e, Value := read_64 bs 8 e, Size := read_64 bs 16 e }

/-- `get_symbol_entry(ctx, sym_tab, idx, sym)`. There is no bounds check of
`idx`; the record is fetched at `sym_tab->Offset + idx * sym_tab->EntrySize`
(uint64 arithmetic). The BAD_ARG NULL checks on `sym_tab`/`sym` are not
modelled (both are assumed present). -/
def get_symbol_entry (ctx : ElfRdrCtx) (cb : ElfCb) (sym_tab : ElfSecHeader) (idx : Nat)
    (out0 : ElfSymTabEntry) : ElfResult × ElfSymTabEntry :=
  if ¬ctx.inited then (.UNINIT, out0)
  else
    let off := w64 (sym_tab.Offset + w64 (idx * sym_tab.EntrySize))
    let sz := if ctx.Class = 1 then elf32SymEntrySize else elf64SymEntrySize
    match cb off sz with
    | .error e => (e, out0)
    | .ok bs => (.OK, decodeSymEntry ctx.Class ctx.Endianness (bs.take sz))

/-- The `for (i = 1; i < sym_cnt; i++)` loop of `get_symbol_by_addr_range`;
`fuel` bounds the remaining iterations (`cnt - i` at entry). -/
def addr_range_loop (ctx : ElfRdrCtx) (cb : ElfCb) (sym_tab : ElfSecHeader) (addr cnt : Nat) :
    Nat → Nat → ElfSymTabEntry → ElfResult × ElfSymTabEntry
  | 0, _, sym => (.NOT_FOUND, sym)
  | fuel + 1, i, sym =>
    if i < cnt then
      let r := get_symbol_entry ctx cb sym_tab i sym
      if r.1 ≠ .OK then r
      else if r.2.SecIdx = 0 then addr_range_loop ctx cb sym_tab addr cnt fuel (i + 1) r.2
      else if addr ≥ r.2.Value ∧ addr < w64 (r.2.Value + r.2.Size) then (.OK, r.2)
      else addr_range_loop ctx cb sym_tab addr cnt fuel (i + 1) r.2
    else (.NOT_FOUND, sym)

/-- The membership test applied by `get_symbol_by_addr_range` to each
visited entry: a non-UNDEF section index and
`value <= addr < value + size` in uint64 arithmetic. -/
def symRangeMatch (addr : Nat) (e : ElfSymTabEntry) : Prop :=
  e.SecIdx ≠ 0 ∧ e.Value ≤ addr ∧ addr < w64 (e.Value + e.Size)

instance (addr : Nat) (e : ElfSymTabEntry) : Decidable (symRangeMatch addr e) := by
  unfold symRangeMatch
  infer_instance

/-- `get_symbol_by_addr_range(ctx, sym_tab, addr, sym)`: BAD_ARG when the
count is 0, else first match of `value <= addr < value + size` (uint64
wrap-around addition) over indices 1..count-1, skipping `SecIdx = UNDEF`. -/
def get_symbol_by_addr_range (ctx : ElfRdrCtx) (cb : ElfCb) (sym_tab : ElfSecHeader)
    (addr : Nat) (sym0 : ElfSymTabEntry) : ElfResult × ElfSymTabEntry :=
  let cnt := get_symbol_count ctx sym_tab
  if cnt = 0 then (.BAD_ARG, sym0)
  else addr_range_loop ctx cb sym_tab addr cnt cnt 1 sym0

/-- The `while (i < len)` loop of `internal_get_str_from_offset`. The
caller's buffer is a memory function `Nat → Nat`; the loop writes each
fetched byte at the next index. On normal exit it yields the loop index
`i` (either the index of the written zero byte, or `len` after consuming
`len` non-zero bytes) together with the final memory. -/
def str_loop (cb : ElfCb) (offset : Nat) :
    Nat → Nat → (Nat → Nat) → Except (ElfResult × (Nat → Nat)) (Nat × (Nat → Nat))
  | 0, i, buf => .ok (i, buf)
  | fuel + 1, i, buf =>
    match cb (w64 (offset + i)) 1 with
    | .error e => .error (e, buf)
    | .ok bs =>
      let b := byteAt bs 0
      let buf2 := fun j => if j = i then b else buf j
      if b = 0 then .ok (i, buf2)
      else str_loop cb offset fuel (i + 1) buf2

/-- `internal_get_str_from_offset(ctx, offset, buff, len)`. After the loop
the C code evaluates `buff[i] != 0` at the final loop index — for a
terminator-less string this index is `len`, one past the caller's buffer,
so the result depends on the pre-existing memory cell `buf len`. -/
def internal_get_str_from_offset (cb : ElfCb) (offset : Nat) (buf : Nat → Nat) (len : Nat) :
    ElfResult × (Nat → Nat) :=
  match str_loop cb offset len 0 buf with
  | .error r => r
  | .ok (i, buf2) => (if buf2 i % 256 ≠ 0 then .BUFFER_OVERFLOW else .OK, buf2)

/-- `get_str_from_table(ctx, sec_idx, str_idx, buff, len)` (section type
3 = STRTAB; the NULL check on `buff` is not modelled). -/
def get_str_from_table (ctx : ElfRdrCtx) (cb : ElfCb) (sec_idx str_idx : Nat)
    (buf : Nat → Nat) (len : Nat) : ElfResult × (Nat → Nat) :=
  let r := get_section_header ctx cb sec_idx {}
  if r.1 ≠ .OK then (r.1, buf)
  else if r.2.Typ ≠ 3 ∨ r.2.Size ≤ str_idx ∨ len = 0 then (.BAD_ARG, buf)
  else internal_get_str_from_offset cb (w64 (r.2.Offset + str_idx)) buf len

/-- The tail of `elf_init` once the full class-specific header has been
fetched successfully (the body of `if (!res)`, lines 147-258): field
decode, size and offset validation and extended-index handling. Struct
offsets follow the elf_repr.h `Elf32Header`/`Elf64Header` layouts. -/
def elf_init_decode (ctx : ElfRdrCtx) (cb : ElfCb) (bs : List Nat) : ElfResult × ElfRdrCtx :=
  let e := ctx.Endianness
  let ctxA := { ctx with Hdr := { ctx.Hdr with
      Typ := read_16 bs 16 e, Machine := read_16 bs 18 e, Version := read_32 bs 20 e } }
  if ctxA.Hdr.Version ≠ 1 then (.BAD_VERSION, ctxA)
  else
    let ctxB :=
      if ctxA.Class = 1 then
        { ctxA with Hdr := { ctxA.Hdr with
            Entry := read_32 bs 24 e, ProHeadOff := read_32 bs 28 e,
            SecHeadOff := read_32 bs 32 e, HeadSize := read_16 bs 40 e,
            PHEntrySize := read_16 bs 42 e, PHEntryNum := read_16 bs 44 e,
            SHEntrySize := read_16 bs 46 e, SHEntryNum := read_16 bs 48 e,
            SecStrIndx := read_16 bs 50 e } }
      else
        { ctxA with Hdr := { ctxA.Hdr with
            Entry := read_64 bs 24 e, ProHeadOff := read_64 bs 32 e,
            SecHeadOff := read_64 bs 40 e, HeadSize := read_16 bs 52 e,
            PHEntrySize := read_16 bs 54 e, PHEntryNum := read_16 bs 56 e,
            SHEntrySize := read_16 bs 58 e, SHEntryNum := read_16 bs 60 e,
            SecStrIndx := read_16 bs 62 e } }
    if ctxB.Class = 1 ∧ ctxB.Hdr.HeadSize ≠ elf32HeaderSize then (.BAD_SIZE, ctxB)
    else if ctxB.Class ≠ 1 ∧ ctxB.Hdr.HeadSize ≠ elf64HeaderSize then (.BAD_SIZE, ctxB)
    else if ctxB.Class = 1 ∧ ctxB.Hdr.PHEntryNum ≠ 0 ∧
            ctxB.Hdr.PHEntrySize ≠ elf32ProHeaderSize then (.BAD_SIZE, ctxB)
    else if ctxB.Class ≠ 1 ∧ ctxB.Hdr.PHEntryNum ≠ 0 ∧
            ctxB.Hdr.PHEntrySize ≠ elf64ProHeaderSize then (.BAD_SIZE, ctxB)
    else if ctxB.Class = 1 ∧ ctxB.Hdr.SHEntryNum ≠ 0 ∧
            ctxB.Hdr.SHEntrySize ≠ elf32SecHeaderSize then (.BAD_SIZE, ctxB)
    else if ctxB.Class ≠ 1 ∧ ctxB.Hdr.SHEntryNum ≠ 0 ∧
            ctxB.Hdr.SHEntrySize ≠ elf64SecHeaderSize then (.BAD_SIZE, ctxB)
    else if ctxB.Hdr.PHEntryNum ≠ 0 ∧ ctxB.Hdr.ProHeadOff = 0 then (.BAD_HEADER, ctxB)
    else if ctxB.Hdr.SHEntryNum ≠ 0 ∧ ctxB.Hdr.SecHeadOff = 0 then (.BAD_HEADER, ctxB)
    else if ctxB.Hdr.SHEntryNum = 0 ∨ ctxB.Hdr.SecStrIndx = 0xffff then
      -- extended-index resolution; `ctxB.inited` is still false here, which
      -- is what the inner `get_section_header` call validates
      if ctxB.Hdr.SecHeadOff = 0 then (.BAD_HEADER, ctxB)
      else
        let r := get_section_header ctxB cb 0 {}
        if r.1 ≠ .OK then (r.1, ctxB)
        else if r.2.Typ ≠ 0 then (.BAD_FORMAT, ctxB)
        else
          let ctxC := if ctxB.Hdr.SHEntryNum = 0 then
              { ctxB with Hdr := { ctxB.Hdr with SHEntryNum := w16 r.2.Size } } else ctxB
          let ctxD := if ctxC.Hdr.SecStrIndx = 0xffff then
              { ctxC with Hdr := { ctxC.Hdr with SecStrIndx := w16 r.2.Link } } else ctxC
          (.OK, { ctxD with inited := true })
    else (.OK, { ctxB with inited := true })

/-- `elf_init(user_ctx, callback, ctx)`. `ctx0` is the (arbitrary) memory of
the caller-allocated context; a `none` callback yields BAD_ARG. Note that
when the full-header fetch fails, the C code skips the decode block but
still executes `initialized = true; return res` (line 260). -/
def elf_init (cbo : Option ElfCb) (ctx0 : ElfRdrCtx) : ElfResult × ElfRdrCtx :=
  let ctx1 := { ctx0 with inited := false }
  match cbo with
  | none => (.BAD_ARG, ctx1)
  | some cb =>
    match cb 0 16 with
    | .error e => (e, ctx1)
    | .ok bs0 =>
      let ident := bs0.take 16
      if ¬(byteAt ident 0 = 0x7f ∧ byteAt ident 1 = 69 ∧
           byteAt ident 2 = 76 ∧ byteAt ident 3 = 70) then (.BAD_MAGIC, ctx1)
      else if byteAt ident 6 ≠ 1 then (.BAD_VERSION, ctx1)
      else
        let ctx2 := { ctx1 with Class := byteAt ident 4 }
        if byteAt ident 4 ≠ 1 ∧ byteAt ident 4 ≠ 2 then (.BAD_CLASS, ctx2)
        else
          let ctx3 := { ctx2 with Endianness := byteAt ident 5 }
          if byteAt ident 5 ≠ 1 ∧ byteAt ident 5 ≠ 2 then (.BAD_ENDIANNESS, ctx3)
          else
            let ctx4 := { ctx3 with Hdr := { ctx3.Hdr with
                EI_OS_ABI := byteAt ident 7, EI_ABI_Version := byteAt ident 8 } }
            let hsz := if ctx4.Class = 1 then elf32HeaderSize else elf64HeaderSize
            match cb 0 hsz with
            | .error e2 => (e2, { ctx4 with inited := true })
            | .ok bs1 => elf_init_decode ctx4 cb (bs1.take hsz)

/-! ### Writer operations (elf_writer.c) -/

/-- The heap chunk `struct Chunk` that `elfw_section_append_data` allocates
and fills: borrowed bytes, size and alignment. A `none` data field models a
NULL data pointer. -/
structure ElfwChunk where
  data : Option (List Nat) := none
  size : Nat := 0
  align : Nat := 0
deriving DecidableEq, Repr

/-- An element of a writer section's chunk vector. The vector stores
`void *` elements; `elfw_section_append_data` passes `&chk` — the address
of its local pointer variable, not the heap chunk `chk` it filled — to
`elfw_vec_push` (elf_writer.c line 362), so the element that lands in the
vector is a reference to a stack slot that is dead once the call returns.
It never carries the `ElfwChunk` the code built. -/
inductive ElfwChunkSlot where
  | danglingLocalRef
deriving DecidableEq, Repr

/-- The internal writer section (`struct ElfWSection`); `Link` is a handle
to another section, modelled as an optional index. -/
structure ElfWSection where
  Name : List Nat := []
  Typ : Nat := 0
  Flags : Nat := 0
  StartAddr : Nat := 0
  Link : Option Nat := none
  Info : Nat := 0
  Align : Nat := 0
  EntrySize : Nat := 0
  Chunks : List ElfwChunkSlot := []
  Offset : Nat := 0
deriving DecidableEq, Repr

/-- The header description held by a writer context (`ElfwHeaderCreateInfo`
stored via `elfw_create_header`; only the class is consulted by
`elfw_add_section`). -/
structure ElfwHeaderInfo where
  Class : Nat := 0
  Endianness : Nat := 0
  Typ : Nat := 0
  Machine : Nat := 0
  Os_abi : Nat := 0
  Abi_version : Nat := 0
  Entry : Nat := 0
  Flags : Nat := 0
deriving DecidableEq, Repr

/-- The writer context (`struct ElfwCtx`; the segment collection is not
needed by any claim and is omitted). -/
structure ElfwCtx where
  Head : Option ElfwHeaderInfo := none
  Sections : List ElfWSection := []
deriving DecidableEq, Repr

/-- `ElfwSectionCreateInfo` (elf_writer.h). -/
structure ElfwSectionCreateInfo where
  Name : List Nat := []
  Typ : Nat := 0
  Flags : Nat := 0
  Address : Nat := 0
  Link : Option Nat := none
  Info : Nat := 0
  Alignment : Nat := 0
  EntrySize : Nat := 0
deriving DecidableEq, Repr

/-- The SYMTAB/DYNSYM entry-size validation of `elfw_add_section`: only
performed when a header description exists (section types: 0 NULL,
2 SYMTAB, 3 STRTAB, 11 DYNSYM; class 1 = CLASS_32). -/
def symtabEntrySizeBad (hd : Option ElfwHeaderInfo) (es : Nat) : Bool :=
  match hd with
  | none => false
  | some h => es ≠ (if h.Class = 1 then elf32SymEntrySize else elf64SymEntrySize)

/-- `elfw_add_section(ctx, info, new_sec)` (allocation failures are not
modelled). The alignment condition at lines 241-242 is transcribed as in
the source: it returns BAD_ARG when `align & (align - 1) == 0`, i.e. it
rejects exactly the non-zero powers of two, despite the source comment
reading "power to two". Flags: bit 0x2 is SEC_FLAG_ALLOC. -/
def elfw_add_section (ctx : ElfwCtx) (info : ElfwSectionCreateInfo) :
    ElfResult × ElfwCtx × Option ElfWSection :=
  let align := info.Alignment
  let addr := info.Address
  if align = 0 then (.BAD_ARG, ctx, none)
  else if align ≠ 0 ∧ align &&& (align - 1) = 0 then (.BAD_ARG, ctx, none)
  else if addr ≠ 0 ∧ addr % align ≠ 0 then (.BAD_ARG, ctx, none)
  else if info.Flags &&& 2 = 0 ∧ addr ≠ 0 then (.BAD_ARG, ctx, none)
  else if info.EntrySize ≠ 0 ∧ info.EntrySize % align ≠ 0 then (.BAD_ARG, ctx, none)
  else if info.Typ = 0 ∧ (addr ≠ 0 ∨ info.EntrySize ≠ 0) then (.BAD_ARG, ctx, none)
  else if info.Typ = 3 ∧ (info.EntrySize ≠ 0 ∧ info.EntrySize ≠ 1) then (.BAD_ARG, ctx, none)
  else if (info.Typ = 11 ∨ info.Typ = 2) ∧ symtabEntrySizeBad ctx.Head info.EntrySize then
    (.BAD_ARG, ctx, none)
  else
    let sec : ElfWSection :=
      { Name := info.Name, Typ := info.Typ, Flags := info.Flags, StartAddr := info.Address,
        Link := info.Link, Info := info.Info, Align := info.Alignment,
        EntrySize := info.EntrySize, Chunks := [], Offset := 0 }
    (.OK, { ctx with Sections := ctx.Sections ++ [sec] }, some sec)

/-- `elfw_section_next_offset(section, align)`:
`(section->Offset + align - 1) & ~(align - 1)` in uint64 arithmetic
(`align - 1` wraps for `align = 0`). -/
def elfw_section_next_offset (s : ElfWSection) (align : Nat) : Nat :=
  w64 (s.Offset + w64 (align + u64mask)) &&& u64not (align + u64mask)

/-- `elfw_section_append_data(section, data, size, align)`: a NULL section
handle yields UNINIT, NULL data BAD_ARG, size 0 is a no-op; otherwise the
code fills a heap chunk `chk = { data, size, align }` (an `ElfwChunk`) but
then calls `elfw_vec_push(&section->Chunks, &chk)` — pushing the address of
the local pointer variable `chk` rather than the chunk — so the element
appended to the chunk list is a dangling stack reference
(`ElfwChunkSlot.danglingLocalRef`), and the running offset advances to the
aligned placement offset plus `size`. -/
def elfw_section_append_data (so : Option ElfWSection) (data : Option (List Nat))
    (size align : Nat) : ElfResult × Option ElfWSection :=
  match so with
  | none => (.UNINIT, none)
  | some s =>
    if data = none then (.BAD_ARG, some s)
    else if size = 0 then (.OK, some s)
    else
      (.OK, some { s with Chunks := s.Chunks ++ [.danglingLocalRef],
                          Offset := w64 (elfw_section_next_offset s align + size) })

/-! ### LEB128 decoders (elf_dwarf.c) -/

/-- The 7-bit payload group of byte `i` of a LEB128 stream. -/
def leGroup (f : Nat → Nat) (i : Nat) : Nat := f i % 256 % 128

/-- Mathematical value of the first `n` little-endian 7-bit groups. -/
def ulebSum (f : Nat → Nat) : Nat → Nat
  | 0 => 0
  | n + 1 => ulebSum f n + leGroup f n * 2 ^ (7 * n)

/-- Two's-complement reading of a 64-bit pattern (`int64_t` view). -/
def toInt64 (n : Nat) : Int :=
  if n % 2 ^ 64 < 2 ^ 63 then (n % 2 ^ 64 : Int) else (n % 2 ^ 64 : Int) - 2 ^ 64

/-- Arithmetic (sign-propagating) right shift of a 64-bit pattern. -/
def asr64 (n s : Nat) : Int := Int.fdiv (toInt64 n) (2 ^ s)

/-- The do-while loop of `decode_ULEB128`: byte index `i` (= `count` so
far), accumulator `acc` (the 64-bit pattern of `*val`), `shift = 7 * i`.
The overflow test `(temp << shift) >> shift != temp` is uint64
shift-and-compare. The loop always terminates within 11 iterations (the
shift exceeds 63 at the eleventh byte), so any fuel ≥ 11 is exact;
`decode_ULEB128` passes 16. -/
def uleb_loop (f : Nat → Nat) : Nat → Nat → Nat → DwrfResult × Nat × Nat
  | 0, i, acc => (.DECODE_ERR, acc, i)
  | fuel + 1, i, acc =>
    let byte := f i % 256
    let temp := byte % 128
    let shift := 7 * i
    if 63 < shift then (.DECODE_ERR, acc, i + 1)
    else if temp * 2 ^ shift % 2 ^ 64 / 2 ^ shift ≠ temp then (.DECODE_ERR, acc, i + 1)
    else
      let acc2 := acc ||| temp * 2 ^ shift % 2 ^ 64
      if byte < 128 then (.OK, acc2, i + 1)
      else uleb_loop f fuel (i + 1) acc2

/-- `decode_ULEB128(uleb128, val, len)` on a byte stream `f` (the NULL
argument checks are not modelled): result code, final `*val` and `*len`. -/
def decode_ULEB128 (f : Nat → Nat) : DwrfResult × Nat × Nat := uleb_loop f 16 0 0

/-- The do-while loop of `decode_SLEB128`: identical to the unsigned loop
except that the overflow test is performed on `int64_t`, i.e. with an
arithmetic right shift of the wrapped product. -/
def sleb_loop (f : Nat → Nat) : Nat → Nat → Nat → DwrfResult × Nat × Nat
  | 0, i, acc => (.DECODE_ERR, acc, i)
  | fuel + 1, i, acc =>
    let byte := f i % 256
    let temp := byte % 128
    let shift := 7 * i
    if 63 < shift then (.DECODE_ERR, acc, i + 1)
    else if asr64 (temp * 2 ^ shift % 2 ^ 64) shift ≠ (temp : Int) then (.DECODE_ERR, acc, i + 1)
    else
      let acc2 := acc ||| temp * 2 ^ shift % 2 ^ 64
      if byte < 128 then (.OK, acc2, i + 1)
      else sleb_loop f fuel (i + 1) acc2

/-- The 64-bit pattern of the sign-extension mask `(int64_t)((~0) << shift)`
(elf_dwarf.c line 211). `~0` has type `int` (32 bits), so the left shift is
performed at `int` width BEFORE the cast widens the value to `int64_t`.
For `shift < 32` the result is well defined on every two's-complement
target: the `int` value `(~0) << shift` has the pattern `2^32 - 2^shift`,
which sign-extends to the 64-bit pattern `2^64 - 2^shift`. For
`32 ≤ shift`, the shift count is at least the width of `int` and the C
expression is undefined behaviour; the model takes the resulting 64-bit
pattern from the parameter `ub` (on x86, for example, the hardware masks
the shift count modulo 32, giving the pattern `2^64 - 2^(shift % 32)`;
other targets and optimisation levels differ). -/
def signExtMask (ub : Nat → Nat) (shift : Nat) : Nat :=
  if shift < 32 then 2 ^ 64 - 2 ^ shift else ub shift % 2 ^ 64

/-- `decode_SLEB128(sleb128, val, len)`; `*val` is kept as its 64-bit
two's-complement pattern. After the loop, `*val |= (int64_t)((~0) << shift)`
runs when `shift < 64` and bit 6 of the final byte is set; the mask is
`signExtMask ub shift`, parameterised over the resolution `ub` of the
undefined 32-bit shift for `32 ≤ shift`. -/
def decode_SLEB128 (ub : Nat → Nat) (f : Nat → Nat) : DwrfResult × Nat × Nat :=
  match sleb_loop f 16 0 0 with
  | (.OK, acc, len) =>
    let byte := f (len - 1) % 256
    let shift := 7 * len
    if shift < 64 ∧ byte / 64 % 2 = 1 then (.OK, acc ||| signExtMask ub shift, len)
    else (.OK, acc, len)
  | r => r


/-! ### Concrete byte sources and contexts used by counterexamples and
witnesses -/

/-- A callback over a total byte file: every fetch succeeds and returns the
requested bytes. -/
def cbOfFile (file : Nat → Nat) : ElfCb := fun off sz =>
  .ok ((List.range sz).map (fun j => file (off + j)))

/-- A callback that always fails with IO_ERROR. -/
def cbErrIO : ElfCb := fun _ _ => .error .IO_ERROR

/-- A callback that always fails with IO_EOF. -/
def cbErrEOF : ElfCb := fun _ _ => .error .IO_EOF

/-- An ELF64 LSB byte file whose header uses the extended section-count
sentinel (`e_shnum = 0`, `e_shoff = 64`) and whose section-header entry 0 is
a well-formed NULL section carrying the true section count 3 in `sh_size`. -/
def fileC1 : Nat → Nat := fun i =>
  if i = 0 then 0x7f else if i = 1 then 69 else if i = 2 then 76 else if i = 3 then 70
  else if i = 4 then 2 else if i = 5 then 1 else if i = 6 then 1
  else if i = 20 then 1 else if i = 40 then 64 else if i = 52 then 64
  else if i = 58 then 64 else if i = 96 then 3 else 0

/-- The context state reached by `elf_init` on `fileC1` just before the
extended-index resolution, with the `initialized` flag forced to true (what
the inner `get_section_header` call would see were the flag already set). -/
def ctxC1resolved : ElfRdrCtx :=
  { inited := true, Class := 2, Endianness := 1,
    Hdr := { Version := 1, SecHeadOff := 64, HeadSize := 64, SHEntrySize := 64,
             SHEntryNum := 0 } }

/-- A callback that serves a valid ELF64 LSB identification block for the
16-byte fetch and fails with IO_EOF for every other request (in particular
for the subsequent full-header fetch). -/
def cbC6 : ElfCb := fun _ sz =>
  if sz = 16 then .ok [0x7f, 69, 76, 70, 2, 1, 1, 0, 0, 0, 0, 0, 0, 0, 0, 0]
  else .error .IO_EOF

/-- An initialised ELF64 LSB reader context with two sections whose header
table is at offset 64. -/
def ctxC4 : ElfRdrCtx :=
  { inited := true, Class := 2, Endianness := 1,
    Hdr := { SecHeadOff := 64, SHEntryNum := 2, SHEntrySize := 64 } }

/-- A byte file for `ctxC4`: section 1 (at offset 128) is a STRTAB of size
16 at file offset 256 whose content is `"\0main\0..."` — the string at
string index 1 is `main`, of length 4, zero-terminated inside the
section. -/
def fileC4 : Nat → Nat := fun i =>
  if i = 132 then 3 else if i = 153 then 1 else if i = 160 then 16
  else if i = 257 then 109 else if i = 258 then 97 else if i = 259 then 105
  else if i = 260 then 110 else 0

/-- Section-create info with a power-of-two alignment (4) and every other
field valid (PROGBITS, zero address, zero entry size). -/
def infoC2pow2 : ElfwSectionCreateInfo :=
  { Name := [46, 116, 101, 120, 116], Typ := 1, Alignment := 4 }

/-- The same section-create info with the non-power-of-two alignment 6. -/
def infoC2nonpow : ElfwSectionCreateInfo :=
  { Name := [46, 116, 101, 120, 116], Typ := 1, Alignment := 6 }

/-- An initialised ELF64 LSB reader context with five program headers. -/
def ctxC3 : ElfRdrCtx :=
  { inited := true, Class := 2, Endianness := 1,
    Hdr := { PHEntryNum := 5, PHEntrySize := 56, ProHeadOff := 64,
             SHEntryNum := 0 } }

/-- An initialised ELF64 LSB reader context (header fields irrelevant to
symbol-table operations are zero). -/
def ctxSym64 : ElfRdrCtx := { inited := true, Class := 2, Endianness := 1 }

/-- A symbol-table section header with three 24-byte entries at offset 0. -/
def stW5 : ElfSecHeader := { Typ := 2, Size := 72, EntrySize := 24 }

/-- A byte file holding the three symbol entries of `stW5`: entry 1 has
`{SecIdx = 1, Value = 0x1000, Size = 0x20}` and entry 2 has
`{SecIdx = 1, Value = 0x2000, Size = 0x10}`. -/
def fileC5 : Nat → Nat := fun i =>
  if i = 30 then 1 else if i = 33 then 16 else if i = 40 then 32
  else if i = 54 then 1 else if i = 57 then 32 else if i = 64 then 16 else 0

/-- The decoded entries of `fileC5` as a function of the index. -/
def entC5 : Nat → ElfSymTabEntry := fun i =>
  if i = 1 then { SecIdx := 1, Value := 4096, Size := 32 }
  else if i = 2 then { SecIdx := 1, Value := 8192, Size := 16 }
  else {}

/-- An initialised ELF64 LSB reader context with one program header at
offset 64. -/
def ctxW9 : ElfRdrCtx :=
  { inited := true, Class := 2, Endianness := 1,
    Hdr := { ProHeadOff := 64, PHEntrySize := 56, PHEntryNum := 1 } }

/-- The witness ULEB128 stream `E5 8E 26`, encoding 624485 in three
bytes. -/
def fUleb : Nat → Nat := fun i => [0xE5, 0x8E, 0x26].getD i 0

/-- The witness SLEB128 stream `7F`, encoding -1 in one byte (sign
extension applies). -/
def fSleb : Nat → Nat := fun i => [0x7f].getD i 0

/-- A stream of continuation bytes with no terminator. -/
def fCont : Nat → Nat := fun _ => 0x80

/-- A resolution of the undefined 32-bit shift that yields 0 (a compiler is
free to produce anything for undefined behaviour). -/
def ubShiftZero : Nat → Nat := fun _ => 0

/-- The x86 resolution of the undefined 32-bit shift: the hardware masks
the shift count modulo 32, so `(~0) << shift` has the `int` pattern
`2^32 - 2^(shift % 32)`, widening to `2^64 - 2^(shift % 32)`. -/
def ubShiftX86 : Nat → Nat := fun shift => 2 ^ 64 - 2 ^ (shift % 32)

/-- The SLEB128 stream `80 80 80 80 40`: a padded 5-byte encoding of
`-2^34` whose final byte has bit 6 set, so the sign-extension step runs
with `shift = 35`. -/
def fSleb5 : Nat → Nat := fun i => [0x80, 0x80, 0x80, 0x80, 0x40].getD i 0

/-! ### Claim theorems -/

/-- Claim C1 (code bug). The claim states that when the section-header
count field is the sentinel 0 (or the section-name index is XINDEX) and the
section-header table offset is non-zero, `elf_init` fetches section-header
entry 0, fails with BAD_FORMAT if its type is not NULL, and otherwise
succeeds after substituting entry 0's Size and Link fields. On the code the
sentinel path can never succeed: the inner `get_section_header` call runs
while the context's `initialized` flag is still false, so it returns UNINIT
and `elf_init` propagates UNINIT — shown here on a byte source whose entry 0
is a well-formed NULL section with extended count 3. Even with the flag
forced to true, the inner fetch of entry 0 would fail with BAD_INDX because
the cached section count is still the sentinel 0. -/
theorem c1_extended_index_path_always_uninit :
    (elf_init (some (cbOfFile fileC1)) {}).1 = .UNINIT ∧
    (elf_init (some (cbOfFile fileC1)) {}).2.inited = false ∧
    (get_section_header ctxC1resolved (cbOfFile fileC1) 0 {}).1 = .BAD_INDX ∧
    (decodeSecHeader 2 1 ((List.range 64).map (fun j => fileC1 (64 + j)))).Typ = 0 ∧
    (decodeSecHeader 2 1 ((List.range 64).map (fun j => fileC1 (64 + j)))).Size = 3 := by
  refine ⟨by decide, by decide, by decide, by decide, by decide⟩

/-- Claim C2 (code bug). The claim states that `elfw_add_section` succeeds
when `info.Alignment` is a non-zero power of two and fails with BAD_ARG when
it is zero or not a power of two. The source's validity test is inverted
(`(align & (align - 1)) == 0` rejects instead of accepting, contradicting
the adjacent comment "power to two"): the call fails with BAD_ARG on the
power-of-two alignment 4 and succeeds on the non-power-of-two alignment 6. -/
theorem c2_alignment_validation_inverted :
    (elfw_add_section {} infoC2pow2).1 = .BAD_ARG ∧
    (elfw_add_section {} infoC2nonpow).1 = .OK ∧
    infoC2pow2.Alignment = 2 ^ 2 ∧
    (∀ k : Nat, 2 ^ k ≠ infoC2nonpow.Alignment) := by
  refine ⟨by decide, by decide, by decide, ?_⟩
  intro k
  match k with
  | 0 => decide
  | 1 => decide
  | 2 => decide
  | (m + 3) =>
    have h8 : (8 : Nat) ≤ 2 ^ (m + 3) := by
      calc (8 : Nat) = 2 ^ 3 := by decide
      _ ≤ 2 ^ (m + 3) := Nat.pow_le_pow_right (by decide) (by omega)
    have : infoC2nonpow.Alignment = 6 := by decide
    omega

/-- Claim C4 (code bug). The claim states that `get_str_from_table` returns
OK iff the buffer length exceeds the string length, and BUFFER_OVERFLOW when
`len` bytes are consumed without a zero byte. After consuming `len` non-zero
bytes the code evaluates `buff[len]` — one cell past the caller's `len`-byte
buffer — and returns OK whenever that out-of-bounds memory cell happens to
be zero: with the 4-byte string `main` and `len = 3`, the call returns OK
when the cell past the buffer is 0 and BUFFER_OVERFLOW when it is 1. (With
`len = 8 > 4` the call returns OK as the claim states.) -/
theorem c4_strtab_overflow_reads_past_buffer :
    (get_str_from_table ctxC4 (cbOfFile fileC4) 1 1 (fun _ => 0) 3).1 = .OK ∧
    (get_str_from_table ctxC4 (cbOfFile fileC4) 1 1 (fun _ => 1) 3).1 = .BUFFER_OVERFLOW ∧
    (get_str_from_table ctxC4 (cbOfFile fileC4) 1 1 (fun _ => 1) 8).1 = .OK := by
  refine ⟨by decide, by decide, by decide⟩

/-- Claim C6 (code bug). The claim states that a failed `elf_init` leaves
the context uninitialised and every subsequent call on an uninitialised
context fails with UNINIT (or returns count 0). When the 16-byte
identification fetch succeeds but the full-header fetch fails, the code
skips the decode block yet still executes `initialized = true; return res`,
so `elf_init` returns the callback's IO_EOF while leaving the context marked
initialised. -/
theorem c6_failed_header_fetch_marks_ctx_inited :
    (elf_init (some cbC6) {}).1 = .IO_EOF ∧
    (elf_init (some cbC6) {}).1 ≠ .OK ∧
    (elf_init (some cbC6) {}).2.inited = true := by
  refine ⟨by decide, by decide, by decide⟩

/-- Counterexample to claim C3: on an initialised context with five program
headers, `get_program_header` at the out-of-range index 7 returns BAD_ARG,
not the BAD_INDX the claim requires. -/
theorem c3_counterexample_program_header_bad_arg :
    (get_program_header ctxC3 cbErrIO 7 {}).1 = .BAD_ARG ∧
    (get_program_header ctxC3 cbErrIO 7 {}).1 ≠ .BAD_INDX := by
  refine ⟨by decide, by decide⟩


/-! ### Helper lemmas on 64-bit mask arithmetic -/

theorem testBit_high_mask (k n i : Nat) (h : k ≤ n) :
    (2 ^ n - 2 ^ k).testBit i = (decide (k ≤ i) && decide (i < n)) := by
  have hpow : 2 ^ k * 2 ^ (n - k) = 2 ^ n := by
    rw [← pow_add]
    congr 1
    omega
  have hsplit : 2 ^ n - 2 ^ k = 2 ^ k * (2 ^ (n - k) - 1) := by
    rw [Nat.mul_sub_one, hpow]
  rw [hsplit, Nat.testBit_mul_pow_two, Nat.testBit_two_pow_sub_one]
  by_cases h1 : k ≤ i
  · by_cases h2 : i < n
    · have h3 : i - k < n - k := by omega
      simp [h1, h2, h3, ge_iff_le]
    · have h3 : ¬(i - k < n - k) := by omega
      simp [h1, h2, h3, ge_iff_le]
  · simp [h1, ge_iff_le]

theorem land_high_mask (x k : Nat) (hx : x < 2 ^ 64) (hk : k ≤ 64) :
    x &&& (2 ^ 64 - 2 ^ k) = x / 2 ^ k * 2 ^ k := by
  apply Nat.eq_of_testBit_eq
  intro i
  rw [Nat.testBit_and, testBit_high_mask k 64 i hk]
  rw [show x / 2 ^ k * 2 ^ k = 2 ^ k * (x / 2 ^ k) by ring]
  rw [Nat.testBit_mul_pow_two, ← Nat.shiftRight_eq_div_pow, Nat.testBit_shiftRight]
  by_cases h1 : k ≤ i
  · have hadd : k + (i - k) = i := by omega
    rw [hadd]
    by_cases h2 : i < 64
    · simp [h1, h2]
    · have hbit : x.testBit i = false := by
        apply Nat.testBit_eq_false_of_lt
        calc x < 2 ^ 64 := hx
        _ ≤ 2 ^ i := Nat.pow_le_pow_right (by omega) (by omega)
      simp [h1, h2, hbit]
  · simp [h1, ge_iff_le]

theorem w64_pow_sub_one (k : Nat) (hk : k ≤ 63) : w64 (2 ^ k + u64mask) = 2 ^ k - 1 := by
  have h1 : (1 : Nat) ≤ 2 ^ k := Nat.one_le_two_pow
  have hlt : 2 ^ k < 2 ^ 64 := Nat.pow_lt_pow_right (by omega) (by omega)
  unfold w64 u64mask
  have hshift : 2 ^ k + (2 ^ 64 - 1) = (2 ^ k - 1) + 2 ^ 64 := by omega
  rw [hshift, Nat.add_mod_right, Nat.mod_eq_of_lt (by omega)]

theorem u64not_of_pow_sub_one (k : Nat) (hk : k ≤ 63) :
    u64not (2 ^ k + u64mask) = 2 ^ 64 - 2 ^ k := by
  rw [u64not, w64_pow_sub_one k hk]
  apply Nat.eq_of_testBit_eq
  intro i
  rw [Nat.testBit_xor, testBit_high_mask k 64 i (by omega), u64mask,
    Nat.testBit_two_pow_sub_one, Nat.testBit_two_pow_sub_one]
  by_cases h1 : k ≤ i
  · by_cases h2 : i < 64
    · have h3 : ¬i < k := by omega
      simp [h1, h2, h3]
    · have h3 : ¬i < k := by omega
      simp [h1, h2, h3]
  · have h2 : i < 64 := by omega
    have h3 : i < k := by omega
    simp [h1, h2, h3]

/-! ### Claims C8, C9, C10 and the amended C3 -/

/-- General behaviour of `elfw_section_append_data` for non-null data and
positive size: OK, exactly one (dangling) element appended to the chunk
vector, and the running offset set to the aligned placement offset plus
`size` in uint64 arithmetic. -/
theorem elfw_append_data_general (s : ElfWSection) (ds : List Nat) (size align : Nat)
    (hsz : 0 < size) :
    elfw_section_append_data (some s) (some ds) size align =
      (.OK, some { s with
        Chunks := s.Chunks ++ [.danglingLocalRef],
        Offset := w64 ((w64 (s.Offset + w64 (align + u64mask)) &&&
                        u64not (align + u64mask)) + size) }) := by
  simp only [elfw_section_append_data, elfw_section_next_offset]
  have : size ≠ 0 := by omega
  simp [this]

/-- `elfw_section_next_offset` at a power-of-two alignment without
wrap-around is the round-up of the running offset to the next multiple of
the alignment. -/
theorem elfw_next_offset_pow2_round (s : ElfWSection) (k : Nat) (hk : k ≤ 63)
    (hno : s.Offset + 2 ^ k ≤ 2 ^ 64) :
    elfw_section_next_offset s (2 ^ k) = (s.Offset + 2 ^ k - 1) / 2 ^ k * 2 ^ k := by
  have h1 : (1 : Nat) ≤ 2 ^ k := Nat.one_le_two_pow
  have hx : w64 (s.Offset + w64 (2 ^ k + u64mask)) = s.Offset + 2 ^ k - 1 := by
    rw [w64_pow_sub_one k hk]
    unfold w64
    rw [Nat.mod_eq_of_lt (by omega)]
    omega
  rw [elfw_section_next_offset, hx, u64not_of_pow_sub_one k hk,
    land_high_mask _ k (by omega) (by omega)]

/-- Claim C8 (code bug). The claim states that `elfw_section_append_data`
with non-null data and positive size appends exactly one chunk and sets
the running offset to `((c + align - 1) & ~(align - 1)) + size`, that
size 0 is a no-op, and that `elfw_section_next_offset` returns the aligned
placement offset without mutating the section. The offset arithmetic, the
size-0 no-op and `elfw_section_next_offset` behave exactly as claimed, but
the element pushed onto the chunk vector is `&chk` — the address of the
local pointer variable, dead once the call returns (elf_writer.c line
362) — not the heap chunk `{data, size, align}` the code just filled in,
so the chunk list never receives the claimed chunk, contradicting the
append's own documentation ("Appends a data chunk to the section") and the
spec's borrow-the-user's-bytes contract. Evaluated at a section with
running offset 5 and three bytes appended at alignment 4: result OK, one
dangling element appended, running offset `((5 + 4 - 1) & ~3) + 3 = 11`,
placement offset 8 = the round-up of 5 to a multiple of 4, and the size-0
call is a no-op. -/
theorem c8_append_pushes_dangling_local_ref :
    elfw_section_append_data (some ({ Offset := 5 } : ElfWSection)) (some [1, 2, 3]) 3 4 =
      (.OK, some ({ Offset := 11,
                    Chunks := [ElfwChunkSlot.danglingLocalRef] } : ElfWSection)) ∧
    elfw_section_append_data (some ({ Offset := 5 } : ElfWSection)) (some [1, 2, 3]) 0 4 =
      (.OK, some ({ Offset := 5 } : ElfWSection)) ∧
    elfw_section_next_offset ({ Offset := 5 } : ElfWSection) 4 = 8 ∧
    (5 + 4 - 1) / 4 * 4 = 8 := by
  refine ⟨by decide, by decide, by decide, by decide⟩

/-- Claim C9 (confirmed). For an initialised context and an in-range index,
`get_program_header` issues its callback fetch at
`ProHeadOff + idx * PHEntrySize` with the size of a section-header record
(`sizeof(Elf32SecHeader)` = 40 for class 32, `sizeof(Elf64SecHeader)` = 64
for class 64) — strictly larger than the class's program-header record (32
resp. 56 bytes) — and a callback error for that over-long request is
returned as the call's result. -/
theorem c9_program_header_fetch_size (ctx : ElfRdrCtx) (cb : ElfCb) (idx : Nat)
    (out0 : ElfProHeader) (hinit : ctx.inited = true) (hidx : idx < ctx.Hdr.PHEntryNum) :
    (get_program_header ctx cb idx out0 =
      match cb (w64 (ctx.Hdr.ProHeadOff + w32 (idx * ctx.Hdr.PHEntrySize)))
               (if ctx.Class = 1 then elf32SecHeaderSize else elf64SecHeaderSize) with
       | .error e => (e, out0)
       | .ok bs => (.OK, decodeProHeader ctx.Class ctx.Endianness
           (bs.take (if ctx.Class = 1 then elf32SecHeaderSize else elf64SecHeaderSize)))) ∧
    elf32ProHeaderSize < elf32SecHeaderSize ∧
    elf64ProHeaderSize < elf64SecHeaderSize ∧
    (∀ e, cb (w64 (ctx.Hdr.ProHeadOff + w32 (idx * ctx.Hdr.PHEntrySize)))
             (if ctx.Class = 1 then elf32SecHeaderSize else elf64SecHeaderSize) = .error e →
      get_program_header ctx cb idx out0 = (e, out0)) := by
  have hnot : ¬ctx.Hdr.PHEntryNum ≤ idx := by omega
  refine ⟨?_, by decide, by decide, ?_⟩
  · simp [get_program_header, hinit, hnot]
  · intro e he
    simp [get_program_header, hinit, hnot, he]

/-- Witness for C9: on a class-64 context with one program header, a
callback that cannot serve the 64-byte request makes the call fail with the
callback's IO_EOF. -/
theorem c9_program_header_fetch_size_witness :
    get_program_header ctxW9 cbErrEOF 0 {} = (.IO_EOF, {}) ∧
    elf32ProHeaderSize < elf32SecHeaderSize := by
  have h := c9_program_header_fetch_size ctxW9 cbErrEOF 0 {} rfl (by decide)
  exact ⟨h.2.2.2 .IO_EOF rfl, h.2.1⟩

/-- Claim C10 (confirmed). `get_symbol_entry` performs no bounds check of
the index: for every initialised context and arbitrary index it issues a
callback fetch at `sym_tab.Offset + idx * sym_tab.EntrySize` and returns
either OK with the decoded entry or the callback's error — never BAD_INDX
(unless the callback itself produces it). -/
theorem c10_symbol_entry_no_bounds_check (ctx : ElfRdrCtx) (cb : ElfCb)
    (sym_tab : ElfSecHeader) (idx : Nat) (s0 : ElfSymTabEntry)
    (hinit : ctx.inited = true) :
    (get_symbol_entry ctx cb sym_tab idx s0 =
      match cb (w64 (sym_tab.Offset + w64 (idx * sym_tab.EntrySize)))
               (if ctx.Class = 1 then elf32SymEntrySize else elf64SymEntrySize) with
       | .error e => (e, s0)
       | .ok bs => (.OK, decodeSymEntry ctx.Class ctx.Endianness
           (bs.take (if ctx.Class = 1 then elf32SymEntrySize else elf64SymEntrySize)))) ∧
    ((∀ e, cb (w64 (sym_tab.Offset + w64 (idx * sym_tab.EntrySize)))
              (if ctx.Class = 1 then elf32SymEntrySize else elf64SymEntrySize) = .error e →
        e ≠ .BAD_INDX) →
      (get_symbol_entry ctx cb sym_tab idx s0).1 ≠ .BAD_INDX) := by
  have heq : get_symbol_entry ctx cb sym_tab idx s0 =
      match cb (w64 (sym_tab.Offset + w64 (idx * sym_tab.EntrySize)))
               (if ctx.Class = 1 then elf32SymEntrySize else elf64SymEntrySize) with
       | .error e => (e, s0)
       | .ok bs => (.OK, decodeSymEntry ctx.Class ctx.Endianness
           (bs.take (if ctx.Class = 1 then elf32SymEntrySize else elf64SymEntrySize))) := by
    simp [get_symbol_entry, hinit]
  refine ⟨heq, ?_⟩
  intro hcb
  rw [heq]
  cases hres : cb (w64 (sym_tab.Offset + w64 (idx * sym_tab.EntrySize)))
      (if ctx.Class = 1 then elf32SymEntrySize else elf64SymEntrySize) with
  | error e => exact hcb e hres
  | ok bs => simp

/-- Witness for C10: an initialised class-64 context, an all-zero byte
source and the far out-of-range index 999 still yield a non-BAD_INDX result
(the call succeeds). -/
theorem c10_symbol_entry_no_bounds_check_witness :
    (get_symbol_entry ctxSym64 (cbOfFile (fun _ => 0)) stW5 999 {}).1 ≠ .BAD_INDX := by
  refine (c10_symbol_entry_no_bounds_check ctxSym64 (cbOfFile (fun _ => 0)) stW5 999 {} rfl).2 ?_
  intro e he
  simp [cbOfFile] at he

/-- Claim C3 (corrected). The index validation of the two accessors on an
initialised context: `get_section_header` fails with BAD_INDX whenever
`idx ≥ section count` or the count is 0; `get_program_header` fails with
BAD_ARG — not the claimed BAD_INDX — whenever `idx ≥ program-header count`
(hence for every index when the count is 0); for an in-range index each
accessor fetches and decodes the record, succeeding when the callback
delivers bytes (and, for sections, the per-type validation passes). -/
theorem c3_index_validation_amended :
    (∀ (ctx : ElfRdrCtx) (cb : ElfCb) (idx : Nat) (out0 : ElfSecHeader),
      ctx.inited = true → (ctx.Hdr.SHEntryNum ≤ idx ∨ ctx.Hdr.SHEntryNum = 0) →
      get_section_header ctx cb idx out0 = (.BAD_INDX, out0)) ∧
    (∀ (ctx : ElfRdrCtx) (cb : ElfCb) (idx : Nat) (out0 : ElfProHeader),
      ctx.inited = true → ctx.Hdr.PHEntryNum ≤ idx →
      get_program_header ctx cb idx out0 = (.BAD_ARG, out0)) ∧
    (∀ (ctx : ElfRdrCtx) (cb : ElfCb) (idx : Nat) (out0 : ElfSecHeader) (bs : List Nat),
      ctx.inited = true → idx < ctx.Hdr.SHEntryNum →
      cb (w64 (ctx.Hdr.SecHeadOff + w32 (idx * ctx.Hdr.SHEntrySize)))
         (if ctx.Class = 1 then elf32SecHeaderSize else elf64SecHeaderSize) = .ok bs →
      secHeaderCheck ctx.Class ctx.Hdr.Typ (decodeSecHeader ctx.Class ctx.Endianness
        (bs.take (if ctx.Class = 1 then elf32SecHeaderSize else elf64SecHeaderSize))) = .OK →
      get_section_header ctx cb idx out0 =
        (.OK, decodeSecHeader ctx.Class ctx.Endianness
          (bs.take (if ctx.Class = 1 then elf32SecHeaderSize else elf64SecHeaderSize)))) ∧
    (∀ (ctx : ElfRdrCtx) (cb : ElfCb) (idx : Nat) (out0 : ElfProHeader) (bs : List Nat),
      ctx.inited = true → idx < ctx.Hdr.PHEntryNum →
      cb (w64 (ctx.Hdr.ProHeadOff + w32 (idx * ctx.Hdr.PHEntrySize)))
         (if ctx.Class = 1 then elf32SecHeaderSize else elf64SecHeaderSize) = .ok bs →
      get_program_header ctx cb idx out0 =
        (.OK, decodeProHeader ctx.Class ctx.Endianness
          (bs.take (if ctx.Class = 1 then elf32SecHeaderSize else elf64SecHeaderSize)))) := by
  refine ⟨?_, ?_, ?_, ?_⟩
  · intro ctx cb idx out0 hinit hrange
    have hcond : idx ≥ ctx.Hdr.SHEntryNum ∨ ctx.Hdr.SHEntryNum = 0 := by omega
    simp [get_section_header, hinit, hcond]
  · intro ctx cb idx out0 hinit hrange
    simp [get_program_header, hinit, hrange]
  · intro ctx cb idx out0 bs hinit hrange hcb hval
    have hnot : ¬(idx ≥ ctx.Hdr.SHEntryNum ∨ ctx.Hdr.SHEntryNum = 0) := by omega
    simp [get_section_header, hinit, hnot, hcb, hval]
  · intro ctx cb idx out0 bs hinit hrange hcb
    have hnot : ¬ctx.Hdr.PHEntryNum ≤ idx := by omega
    simp [get_program_header, hinit, hnot, hcb]

/-- Witness for the amended C3: on `ctxC3` (section count 0, five program
headers) index 5 fails with BAD_INDX for sections, and index 2 of the
program-header table decodes successfully from an all-zero byte source. -/
theorem c3_index_validation_amended_witness :
    get_section_header ctxC3 cbErrIO 5 {} = (.BAD_INDX, {}) ∧
    get_program_header ctxC3 (cbOfFile (fun _ => 0)) 2 {} = (.OK, {}) := by
  refine ⟨c3_index_validation_amended.1 ctxC3 cbErrIO 5 {} rfl (by decide), ?_⟩
  have h := c3_index_validation_amended.2.2.2 ctxC3 (cbOfFile (fun _ => 0)) 2 {}
    ((List.range 64).map (fun _ => 0)) rfl (by decide) rfl
  rw [h]
  decide


/-! ### Claim C5: first-match semantics of the address-range symbol
search -/

theorem addr_range_loop_not_found (ctx : ElfRdrCtx) (cb : ElfCb) (st : ElfSecHeader)
    (addr cnt : Nat) (E : Nat → ElfSymTabEntry)
    (hent : ∀ i s0, 1 ≤ i → i < cnt → get_symbol_entry ctx cb st i s0 = (.OK, E i)) :
    ∀ fuel i sym, 1 ≤ i → cnt ≤ i + fuel →
      (∀ j, i ≤ j → j < cnt → ¬symRangeMatch addr (E j)) →
      (addr_range_loop ctx cb st addr cnt fuel i sym).1 = .NOT_FOUND := by
  intro fuel
  induction fuel with
  | zero =>
    intro i sym h1 h2 h3
    simp [addr_range_loop]
  | succ fuel ih =>
    intro i sym h1 h2 h3
    by_cases hlt : i < cnt
    · simp only [addr_range_loop, if_pos hlt]
      rw [hent i sym h1 hlt]
      simp only [ne_eq, not_true_eq_false, if_false]
      by_cases hsec : (E i).SecIdx = 0
      · simp only [hsec, if_pos rfl]
        exact ih (i + 1) (E i) (by omega) (by omega) (fun j hj1 hj2 => h3 j (by omega) hj2)
      · have hnm := h3 i (Nat.le_refl i) hlt
        have hcond : ¬(addr ≥ (E i).Value ∧ addr < w64 ((E i).Value + (E i).Size)) := by
          intro hc
          exact hnm ⟨hsec, hc.1, hc.2⟩
        simp only [if_neg hsec, if_neg hcond]
        exact ih (i + 1) (E i) (by omega) (by omega) (fun j hj1 hj2 => h3 j (by omega) hj2)
    · simp [addr_range_loop, hlt]

theorem addr_range_loop_found (ctx : ElfRdrCtx) (cb : ElfCb) (st : ElfSecHeader)
    (addr cnt : Nat) (E : Nat → ElfSymTabEntry)
    (hent : ∀ i s0, 1 ≤ i → i < cnt → get_symbol_entry ctx cb st i s0 = (.OK, E i)) :
    ∀ fuel i sym i0, 1 ≤ i → i ≤ i0 → i0 < cnt → cnt ≤ i + fuel →
      symRangeMatch addr (E i0) →
      (∀ j, i ≤ j → j < i0 → ¬symRangeMatch addr (E j)) →
      addr_range_loop ctx cb st addr cnt fuel i sym = (.OK, E i0) := by
  intro fuel
  induction fuel with
  | zero =>
    intro i sym i0 h1 h2 h3 h4 _ _
    omega
  | succ fuel ih =>
    intro i sym i0 h1 h2 h3 h4 hm hbefore
    have hlt : i < cnt := by omega
    simp only [addr_range_loop, if_pos hlt]
    rw [hent i sym h1 hlt]
    simp only [ne_eq, not_true_eq_false, if_false]
    by_cases heq : i = i0
    · subst heq
      have hsec : ¬(E i).SecIdx = 0 := hm.1
      have hcond : addr ≥ (E i).Value ∧ addr < w64 ((E i).Value + (E i).Size) :=
        ⟨hm.2.1, hm.2.2⟩
      simp [hsec, hcond]
    · have hnm := hbefore i (Nat.le_refl i) (by omega)
      by_cases hsec : (E i).SecIdx = 0
      · simp only [hsec, if_pos rfl]
        exact ih (i + 1) (E i) i0 (by omega) (by omega) h3 (by omega) hm
          (fun j hj1 hj2 => hbefore j (by omega) hj2)
      · have hcond : ¬(addr ≥ (E i).Value ∧ addr < w64 ((E i).Value + (E i).Size)) := by
          intro hc
          exact hnm ⟨hsec, hc.1, hc.2⟩
        simp only [if_neg hsec, if_neg hcond]
        exact ih (i + 1) (E i) i0 (by omega) (by omega) h3 (by omega) hm
          (fun j hj1 hj2 => hbefore j (by omega) hj2)

/-- Claim C5 (confirmed). For an initialised context and a symbol table
with entry count `n = Size / EntrySize ≥ 1` whose entries decode as `E`,
`get_symbol_by_addr_range` returns NOT_FOUND when no index in `[1, n)` has
a non-UNDEF section index and `value ≤ addr < value + size` (uint64
arithmetic, no symbol-type filter), and returns OK with the entry at the
smallest matching index otherwise; at the boundary, a symbol of non-zero
size without wrap-around matches `addr = value` and
`addr = value + size - 1` but not `addr = value + size`. -/
theorem c5_symbol_by_addr_range_first_match (ctx : ElfRdrCtx) (cb : ElfCb)
    (st : ElfSecHeader) (addr : Nat) (sym0 : ElfSymTabEntry) (E : Nat → ElfSymTabEntry)
    (hinit : ctx.inited = true) (hes : 0 < st.EntrySize)
    (hn : 1 ≤ st.Size / st.EntrySize)
    (hent : ∀ i s0, 1 ≤ i → i < st.Size / st.EntrySize →
      get_symbol_entry ctx cb st i s0 = (.OK, E i)) :
    ((∀ i, 1 ≤ i → i < st.Size / st.EntrySize → ¬symRangeMatch addr (E i)) →
      (get_symbol_by_addr_range ctx cb st addr sym0).1 = .NOT_FOUND) ∧
    (∀ i0, 1 ≤ i0 → i0 < st.Size / st.EntrySize → symRangeMatch addr (E i0) →
      (∀ j, 1 ≤ j → j < i0 → ¬symRangeMatch addr (E j)) →
      get_symbol_by_addr_range ctx cb st addr sym0 = (.OK, E i0)) ∧
    (∀ e : ElfSymTabEntry, e.SecIdx ≠ 0 → 1 ≤ e.Size → e.Value + e.Size < 2 ^ 64 →
      symRangeMatch e.Value e ∧ symRangeMatch (e.Value + e.Size - 1) e ∧
      ¬symRangeMatch (e.Value + e.Size) e) := by
  have hcnt : get_symbol_count ctx st = st.Size / st.EntrySize := by
    have : ¬st.EntrySize = 0 := by omega
    simp [get_symbol_count, hinit, this]
  have hne : ¬get_symbol_count ctx st = 0 := by omega
  refine ⟨?_, ?_, ?_⟩
  · intro hnone
    simp only [get_symbol_by_addr_range, hcnt]
    rw [if_neg (show ¬st.Size / st.EntrySize = 0 by omega)]
    exact addr_range_loop_not_found ctx cb st addr (st.Size / st.EntrySize) E hent
      (st.Size / st.EntrySize) 1 sym0 (Nat.le_refl 1) (by omega) (fun j hj1 hj2 => hnone j hj1 hj2)
  · intro i0 h1 h2 hm hbefore
    simp only [get_symbol_by_addr_range, hcnt]
    rw [if_neg (show ¬st.Size / st.EntrySize = 0 by omega)]
    exact addr_range_loop_found ctx cb st addr (st.Size / st.EntrySize) E hent
      (st.Size / st.EntrySize) 1 sym0 i0 (Nat.le_refl 1) h1 h2 (by omega) hm
      (fun j hj1 hj2 => hbefore j hj1 hj2)
  · intro e hsec hsz hnw
    have hw : w64 (e.Value + e.Size) = e.Value + e.Size := Nat.mod_eq_of_lt hnw
    refine ⟨⟨hsec, Nat.le_refl _, by rw [hw]; omega⟩,
      ⟨hsec, by omega, by rw [hw]; omega⟩, ?_⟩
    intro hmm
    have := hmm.2.2
    rw [hw] at this
    omega

/-- Witness for C5 on the two-symbol table of `fileC5`
(`{value 0x1000, size 0x20}` and `{value 0x2000, size 0x10}`): the address
0x1005 returns the first entry, and 0x1020 = value + size of the first
entry (with the second not matching either) returns NOT_FOUND. -/
theorem c5_symbol_by_addr_range_first_match_witness :
    get_symbol_by_addr_range ctxSym64 (cbOfFile fileC5) stW5 4101 {} = (.OK, entC5 1) ∧
    (get_symbol_by_addr_range ctxSym64 (cbOfFile fileC5) stW5 4128 {}).1 = .NOT_FOUND := by
  have hent : ∀ i s0, 1 ≤ i → i < stW5.Size / stW5.EntrySize →
      get_symbol_entry ctxSym64 (cbOfFile fileC5) stW5 i s0 = (.OK, entC5 i) := by
    intro i s0 h1 h2
    have h3 : i < 3 := h2
    interval_cases i
    · rfl
    · rfl
  constructor
  · exact (c5_symbol_by_addr_range_first_match ctxSym64 (cbOfFile fileC5) stW5 4101 {}
      entC5 rfl (by decide) (by decide) hent).2.1 1 (by decide) (by decide)
      (by decide) (fun j hj1 hj2 => by omega)
  · refine (c5_symbol_by_addr_range_first_match ctxSym64 (cbOfFile fileC5) stW5 4128 {}
      entC5 rfl (by decide) (by decide) hent).1 ?_
    intro i h1 h2
    have h3 : i < 3 := h2
    interval_cases i
    · decide
    · decide


/-! ### Claim C7: LEB128 decoding -/

theorem leGroup_lt (f : Nat → Nat) (i : Nat) : leGroup f i < 128 :=
  Nat.mod_lt _ (by omega)

theorem ulebSum_lt (f : Nat → Nat) : ∀ n, ulebSum f n < 2 ^ (7 * n) := by
  intro n
  induction n with
  | zero => simp [ulebSum]
  | succ n ih =>
    have hg : leGroup f n < 128 := leGroup_lt f n
    have h1 : ulebSum f (n + 1) = ulebSum f n + leGroup f n * 2 ^ (7 * n) := rfl
    have h2 : 2 ^ (7 * (n + 1)) = 128 * 2 ^ (7 * n) := by
      rw [show 7 * (n + 1) = 7 + 7 * n by ring, pow_add]
      norm_num
    have h3 : leGroup f n * 2 ^ (7 * n) ≤ 127 * 2 ^ (7 * n) :=
      Nat.mul_le_mul_right _ (by omega)
    omega

theorem uleb_check_bound (temp s : Nat) (hs : s ≤ 63)
    (h : temp * 2 ^ s % 2 ^ 64 / 2 ^ s = temp) : temp < 2 ^ (64 - s) := by
  have hsplit : (2 : Nat) ^ 64 = 2 ^ (64 - s) * 2 ^ s := by
    rw [← pow_add]
    congr 1
    omega
  rw [hsplit, Nat.mul_mod_mul_right, Nat.mul_div_cancel _ (Nat.two_pow_pos s)] at h
  have hlt : temp % 2 ^ (64 - s) < 2 ^ (64 - s) := Nat.mod_lt _ (Nat.two_pow_pos _)
  omega

theorem uleb_check_fit (temp s : Nat) (hs : s ≤ 63)
    (h : temp * 2 ^ s % 2 ^ 64 / 2 ^ s = temp) : (temp + 1) * 2 ^ s ≤ 2 ^ 64 := by
  have hb := uleb_check_bound temp s hs h
  have hsplit : (2 : Nat) ^ 64 = 2 ^ (64 - s) * 2 ^ s := by
    rw [← pow_add]
    congr 1
    omega
  have hmul : (temp + 1) * 2 ^ s ≤ 2 ^ (64 - s) * 2 ^ s :=
    Nat.mul_le_mul_right _ (by omega)
  omega

theorem int_mod_two_pow_64 (n : Nat) (h : n < 2 ^ 64) :
    ((n : Int)) % 2 ^ 64 = (n : Int) :=
  Int.emod_eq_of_lt (Int.ofNat_nonneg n) (by exact_mod_cast h)

theorem asr64_of_lt (t s : Nat) (h : t * 2 ^ s < 2 ^ 63) :
    asr64 (t * 2 ^ s) s = (t : Int) := by
  have h64 : t * 2 ^ s < 2 ^ 64 := lt_trans h (by norm_num)
  unfold asr64 toInt64
  rw [Nat.mod_eq_of_lt h64, if_pos h, int_mod_two_pow_64 _ h64]
  push_cast
  exact Int.mul_fdiv_cancel _ (pow_ne_zero s (by norm_num))

theorem asr64_of_ge (t s : Nat) (hs : s ≤ 63) (hlo : 2 ^ 63 ≤ t * 2 ^ s)
    (hhi : t * 2 ^ s < 2 ^ 64) : asr64 (t * 2 ^ s) s = (t : Int) - 2 ^ (64 - s) := by
  unfold asr64 toInt64
  rw [Nat.mod_eq_of_lt hhi, if_neg (by omega), int_mod_two_pow_64 _ hhi]
  have hsplit : (2 : Int) ^ (64 - s) * 2 ^ s = 2 ^ 64 := by
    rw [← pow_add]
    congr 1
    omega
  have hfact : ((t * 2 ^ s : Nat) : Int) - 2 ^ 64 = ((t : Int) - 2 ^ (64 - s)) * 2 ^ s := by
    push_cast
    rw [sub_mul, hsplit]
    norm_num
  rw [hfact]
  exact Int.mul_fdiv_cancel _ (pow_ne_zero s (by norm_num))

theorem sleb_check_bound (temp s : Nat) (hs : s ≤ 63)
    (h : asr64 (temp * 2 ^ s % 2 ^ 64) s = (temp : Int)) : temp * 2 ^ s < 2 ^ 63 := by
  have hsplit : (2 : Nat) ^ 64 = 2 ^ (64 - s) * 2 ^ s := by
    rw [← pow_add]
    congr 1
    omega
  have hmod : temp * 2 ^ s % 2 ^ 64 = temp % 2 ^ (64 - s) * 2 ^ s := by
    rw [hsplit, Nat.mul_mod_mul_right]
  rw [hmod] at h
  have htp_lt : temp % 2 ^ (64 - s) < 2 ^ (64 - s) := Nat.mod_lt _ (Nat.two_pow_pos _)
  have hub : temp % 2 ^ (64 - s) * 2 ^ s < 2 ^ 64 := by
    have hm2 : (temp % 2 ^ (64 - s) + 1) * 2 ^ s ≤ 2 ^ (64 - s) * 2 ^ s :=
      Nat.mul_le_mul_right _ (by omega)
    have hexp : (temp % 2 ^ (64 - s) + 1) * 2 ^ s = temp % 2 ^ (64 - s) * 2 ^ s + 2 ^ s := by
      ring
    have hpos := Nat.two_pow_pos s
    omega
  by_cases hb : temp % 2 ^ (64 - s) * 2 ^ s < 2 ^ 63
  · rw [asr64_of_lt _ s hb] at h
    have heq : temp % 2 ^ (64 - s) = temp := by exact_mod_cast h
    have hmul : temp % 2 ^ (64 - s) * 2 ^ s = temp * 2 ^ s := by rw [heq]
    omega
  · exfalso
    rw [asr64_of_ge _ s hs (by omega) hub] at h
    have hneg : ((temp % 2 ^ (64 - s) : Nat) : Int) < 2 ^ (64 - s) := by
      exact_mod_cast htp_lt
    have hge : (0 : Int) ≤ (temp : Int) := Int.ofNat_nonneg temp
    omega

theorem acc_or_group (f : Nat → Nat) (i : Nat)
    (hfit : f i % 256 % 128 * 2 ^ (7 * i) < 2 ^ 64) :
    ulebSum f i ||| f i % 256 % 128 * 2 ^ (7 * i) % 2 ^ 64 = ulebSum f (i + 1) := by
  rw [Nat.mod_eq_of_lt hfit]
  have hlt : ulebSum f i < 2 ^ (7 * i) := ulebSum_lt f i
  have hor := Nat.mul_add_lt_is_or hlt (f i % 256 % 128)
  rw [Nat.lor_comm, show f i % 256 % 128 * 2 ^ (7 * i) =
    2 ^ (7 * i) * (f i % 256 % 128) by ring, ← hor]
  rw [ulebSum]
  simp only [leGroup]
  ring

theorem or_high_ext (a l : Nat) (ha : a < 2 ^ l) (hl : l < 64) :
    a ||| (2 ^ 64 - 2 ^ l) = a + (2 ^ 64 - 2 ^ l) := by
  have hpow : 2 ^ l * 2 ^ (64 - l) = 2 ^ 64 := by
    rw [← pow_add]
    congr 1
    omega
  have hsplit : 2 ^ l * (2 ^ (64 - l) - 1) = 2 ^ 64 - 2 ^ l := by
    rw [Nat.mul_sub_one, hpow]
  rw [← hsplit, Nat.lor_comm, ← Nat.mul_add_lt_is_or ha (2 ^ (64 - l) - 1)]
  ring

theorem uleb_loop_sound (f : Nat → Nat) : ∀ fuel i acc v len,
    acc = ulebSum f i →
    uleb_loop f fuel i acc = (.OK, v, len) →
    i < len ∧ len ≤ 10 ∧ (∀ j, i ≤ j → j < len - 1 → 128 ≤ f j % 256) ∧
    f (len - 1) % 256 < 128 ∧ v = ulebSum f len ∧ v < 2 ^ 64 := by
  intro fuel
  induction fuel with
  | zero =>
    intro i acc v len hacc h
    simp [uleb_loop] at h
  | succ fuel ih =>
    intro i acc v len hacc h
    simp only [uleb_loop] at h
    by_cases h63 : 63 < 7 * i
    · rw [if_pos h63] at h
      simp at h
    · rw [if_neg h63] at h
      by_cases hchk : f i % 256 % 128 * 2 ^ (7 * i) % 2 ^ 64 / 2 ^ (7 * i) = f i % 256 % 128
      · rw [if_neg (not_not_intro hchk)] at h
        have hfit1 := uleb_check_fit (f i % 256 % 128) (7 * i) (by omega) hchk
        have hexp : (f i % 256 % 128 + 1) * 2 ^ (7 * i) =
            f i % 256 % 128 * 2 ^ (7 * i) + 2 ^ (7 * i) := by ring
        have hpos := Nat.two_pow_pos (7 * i)
        have hfit : f i % 256 % 128 * 2 ^ (7 * i) < 2 ^ 64 := by omega
        have hacc2 : acc ||| f i % 256 % 128 * 2 ^ (7 * i) % 2 ^ 64 = ulebSum f (i + 1) := by
          rw [hacc]
          exact acc_or_group f i hfit
        by_cases hterm : f i % 256 < 128
        · rw [if_pos hterm] at h
          injection h with h1 h2
          injection h2 with hv hlen
          subst hlen
          have hsum_lt : ulebSum f i < 2 ^ (7 * i) := ulebSum_lt f i
          have hstep : ulebSum f (i + 1) =
              ulebSum f i + f i % 256 % 128 * 2 ^ (7 * i) := rfl
          refine ⟨by omega, by omega, ?_, ?_, ?_, ?_⟩
          · intro j hj1 hj2
            omega
          · simpa using hterm
          · rw [← hv]
            exact hacc2
          · rw [← hv, hacc2]
            omega
        · rw [if_neg hterm] at h
          obtain ⟨ha, hb, hc, hd, he, hf2⟩ := ih (i + 1) _ v len hacc2 h
          refine ⟨by omega, hb, ?_, hd, he, hf2⟩
          intro j hj1 hj2
          by_cases hji : j = i
          · subst hji
            omega
          · exact hc j (by omega) hj2
      · rw [if_pos hchk] at h
        simp at h

theorem sleb_loop_sound (f : Nat → Nat) : ∀ fuel i acc v len,
    acc = ulebSum f i →
    sleb_loop f fuel i acc = (.OK, v, len) →
    i < len ∧ len ≤ 10 ∧ (∀ j, i ≤ j → j < len - 1 → 128 ≤ f j % 256) ∧
    f (len - 1) % 256 < 128 ∧ v = ulebSum f len ∧ v < 2 ^ 64 := by
  intro fuel
  induction fuel with
  | zero =>
    intro i acc v len hacc h
    simp [sleb_loop] at h
  | succ fuel ih =>
    intro i acc v len hacc h
    simp only [sleb_loop] at h
    by_cases h63 : 63 < 7 * i
    · rw [if_pos h63] at h
      simp at h
    · rw [if_neg h63] at h
      by_cases hchk : asr64 (f i % 256 % 128 * 2 ^ (7 * i) % 2 ^ 64) (7 * i) =
          ((f i % 256 % 128 : Nat) : Int)
      · rw [if_neg (not_not_intro hchk)] at h
        have hfit63 := sleb_check_bound (f i % 256 % 128) (7 * i) (by omega) hchk
        have hfit : f i % 256 % 128 * 2 ^ (7 * i) < 2 ^ 64 :=
          lt_trans hfit63 (by norm_num)
        have hs63 : (2 : Nat) ^ (7 * i) ≤ 2 ^ 63 :=
          Nat.pow_le_pow_right (by omega) (by omega)
        have hacc2 : acc ||| f i % 256 % 128 * 2 ^ (7 * i) % 2 ^ 64 = ulebSum f (i + 1) := by
          rw [hacc]
          exact acc_or_group f i hfit
        by_cases hterm : f i % 256 < 128
        · rw [if_pos hterm] at h
          injection h with h1 h2
          injection h2 with hv hlen
          subst hlen
          have hsum_lt : ulebSum f i < 2 ^ (7 * i) := ulebSum_lt f i
          have hstep : ulebSum f (i + 1) =
              ulebSum f i + f i % 256 % 128 * 2 ^ (7 * i) := rfl
          refine ⟨by omega, by omega, ?_, ?_, ?_, ?_⟩
          · intro j hj1 hj2
            omega
          · simpa using hterm
          · rw [← hv]
            exact hacc2
          · rw [← hv, hacc2]
            omega
        · rw [if_neg hterm] at h
          obtain ⟨ha, hb, hc, hd, he, hf2⟩ := ih (i + 1) _ v len hacc2 h
          refine ⟨by omega, hb, ?_, hd, he, hf2⟩
          intro j hj1 hj2
          by_cases hji : j = i
          · subst hji
            omega
          · exact hc j (by omega) hj2
      · rw [if_pos hchk] at h
        simp at h

theorem uleb_loop_allcont (f : Nat → Nat) (hcont : ∀ j, j < 10 → 128 ≤ f j % 256) :
    ∀ fuel i acc, (uleb_loop f fuel i acc).1 = .DECODE_ERR := by
  intro fuel
  induction fuel with
  | zero =>
    intro i acc
    simp [uleb_loop]
  | succ fuel ih =>
    intro i acc
    simp only [uleb_loop]
    by_cases h63 : 63 < 7 * i
    · rw [if_pos h63]
    · rw [if_neg h63]
      by_cases hchk : f i % 256 % 128 * 2 ^ (7 * i) % 2 ^ 64 / 2 ^ (7 * i) = f i % 256 % 128
      · rw [if_neg (not_not_intro hchk)]
        have hge : 128 ≤ f i % 256 := hcont i (by omega)
        rw [if_neg (by omega)]
        exact ih (i + 1) _
      · rw [if_pos hchk]

theorem sleb_loop_allcont (f : Nat → Nat) (hcont : ∀ j, j < 10 → 128 ≤ f j % 256) :
    ∀ fuel i acc, (sleb_loop f fuel i acc).1 = .DECODE_ERR := by
  intro fuel
  induction fuel with
  | zero =>
    intro i acc
    simp [sleb_loop]
  | succ fuel ih =>
    intro i acc
    simp only [sleb_loop]
    by_cases h63 : 63 < 7 * i
    · rw [if_pos h63]
    · rw [if_neg h63]
      by_cases hchk : asr64 (f i % 256 % 128 * 2 ^ (7 * i) % 2 ^ 64) (7 * i) =
          ((f i % 256 % 128 : Nat) : Int)
      · rw [if_neg (not_not_intro hchk)]
        have hge : 128 ≤ f i % 256 := hcont i (by omega)
        rw [if_neg (by omega)]
        exact ih (i + 1) _
      · rw [if_pos hchk]

/-- Claim C7 (code bug). The claim states that `decode_SLEB128` sign-extends
the result from bit 6 of the final byte exactly when the final shift count
is less than 64. The sign-extension mask at elf_dwarf.c line 211 is
`(int64_t)((~0) << shift)`: `~0` has type `int` (32 bits), so the shift
happens at `int` width before the widening cast, and for final shift counts
in [32, 64) — every 5- to 9-byte encoding — the shift count reaches the
width of `int` and the expression is undefined behaviour, not the claimed
64-bit extension mask. Demonstration on the 5-byte stream `80 80 80 80 40`
(a padded encoding of `-2^34`; the loop yields the group sum `2^34` with
`len = 5`, final shift count 35, bit 6 of the final byte set): the claimed
sign-extended pattern is `ulebSum + (2^64 - 2^35) = 2^64 - 2^34`, but under
the zero resolution of the undefined shift the decoder returns the
un-extended `2^34`, and under the x86 resolution (shift count masked modulo
32) it returns `2^64 - 2^3` — both differ from the claimed value and from
each other. On 1- to 4-byte encodings the final shift count is below 32
and the extension is well defined: `7F` decodes to the -1 pattern
`2^64 - 1` under every resolution, as claimed. The overflow check behaves
as claimed: an unterminated stream of continuation bytes makes both
decoders fail with DECODE_ERR, and the unsigned decode of `E5 8E 26`
yields 624485 in 3 bytes. -/
theorem c7_sleb_sign_extension_32bit_shift :
    decode_SLEB128 ubShiftZero fSleb5 = (.OK, 2 ^ 34, 5) ∧
    decode_SLEB128 ubShiftX86 fSleb5 = (.OK, 2 ^ 64 - 2 ^ 3, 5) ∧
    ulebSum fSleb5 5 + (2 ^ 64 - 2 ^ (7 * 5)) = 2 ^ 64 - 2 ^ 34 ∧
    (2 : Nat) ^ 34 ≠ 2 ^ 64 - 2 ^ 34 ∧
    (2 : Nat) ^ 64 - 2 ^ 3 ≠ 2 ^ 64 - 2 ^ 34 ∧
    (∀ ub : Nat → Nat, decode_SLEB128 ub fSleb = (.OK, 2 ^ 64 - 1, 1)) ∧
    (decode_ULEB128 fCont).1 = .DECODE_ERR ∧
    (decode_SLEB128 ubShiftZero fCont).1 = .DECODE_ERR ∧
    decode_ULEB128 fUleb = (.OK, 624485, 3) := by
  refine ⟨by decide, by decide, by decide, by decide, by decide,
    ?_, by decide, by decide, by decide⟩
  intro ub
  have hloop : sleb_loop fSleb 16 0 0 = (.OK, 127, 1) := by decide
  have hmask : signExtMask ub 7 = 2 ^ 64 - 2 ^ 7 := by simp [signExtMask]
  simp only [decode_SLEB128, hloop]
  norm_num [fSleb, hmask]
  decide

end ElfLib
